import Mathlib

/-!
Verification of the Questions-tab store of the Radi Quiz frontend
(`src/frontend/src/pages/QuizQuestionsTab.tsx`, with the near-duplicate
variant in `src/frontend/src/pages/QuizPage.tsx`).

The React components are shallowly embedded as pure functions: each store
operation becomes a function from the local component state and a network
oracle (the outcome of the HTTP requests the operation performs) to the
operation's boolean result, the list of requests it issued, and the new
local state.  The reorder computation is embedded as a pure function on
the subject tree.
-/

namespace RadiQuiz

/-- Embeds the `Answer` record of QuizQuestionsTab.tsx. -/
structure Answer where
  answer_uuid : String
  answer_option : String
  correct : Bool
  answer_order : Int
deriving Repr, DecidableEq

/-- Embeds the `Question` record of QuizQuestionsTab.tsx.  The purely
presentational fields that no modelled operation reads (`question_text`,
`points`, `question_number`, the illustration fields, `number_of_lines`)
are omitted; they are carried through every state update unchanged. -/
structure Question where
  question_uuid : String
  question_type : String
  subject_uuid : String
  answers : List Answer
deriving Repr, DecidableEq

/-- Embeds the `Subject` record of QuizQuestionsTab.tsx. -/
structure Subject where
  subject_uuid : String
  subject_title : String
  sort_order : Int
  questions : List Question
deriving Repr, DecidableEq

/-- A JSON-ish payload value (the `unknown` values placed in request
payload objects).  The exact numeric value never influences control flow,
so numbers are carried as integers. -/
inductive Val where
  | str (s : String)
  | num (n : Int)
  | bool (b : Bool)
  | null
deriving Repr, DecidableEq

/-- One entry of the cross-subject layout sent by `reorderQuestions` in
the body of `PATCH /quizzes/{quiz}/questions/order`. -/
structure SubjectLayout where
  subject_uuid : String
  question_uuids : List String
deriving Repr, DecidableEq

/-- The HTTP requests an operation can issue, with the parts of the body
that the claims are about. -/
inductive Request where
  | getTree
  | postQuestion (payload : List (String × Val))
  | putQuestion (questionUuid : String) (body : List (String × Val))
  | deleteQuestionReq (questionUuid : String)
  | postAnswer (questionUuid : String) (answerOption : String) (correct : Bool)
  | putAnswer (questionUuid : String) (answerUuid : String) (body : List (String × Val))
  | deleteAnswerReq (questionUuid : String) (answerUuid : String)
  | patchAnswersOrder (questionUuid : String) (answerUuids : List String)
  | patchQuestionsOrder (layout : List SubjectLayout)
  | patchSubjectsOrder (subjectUuids : List String)
  | postIllustration (questionUuid : String)
  | deleteIllustrationReq (questionUuid : String)
deriving Repr, DecidableEq

/-- The local component state the store operations read and write:
the subject tree plus the inline status/error message strings. -/
structure TabState where
  subjects : List Subject
  status : Option String
  error : Option String
deriving Repr, DecidableEq

/-- The fields of a parsed JSON response body that the code reads:
the endpoint-specific success payload (for the order PATCHes the
`subjects` array) and the `error` field. -/
structure ParsedBody (β : Type) where
  payload : Option β
  errorMsg : Option String
deriving Repr, DecidableEq

/-- The outcome of one `fetch` call: either the promise rejected
(`thrown`, carrying the error message), or a response arrived with the
given `ok` flag and the result of `parseJson` on its body (`none` when
the body is not parseable JSON — `parseJson` itself never throws). -/
inductive FetchOutcome (β : Type) where
  | thrown (msg : String)
  | got (ok : Bool) (data : Option (ParsedBody β))
deriving Repr, DecidableEq

/-- Embeds the JavaScript `String.prototype.trim()` calls of the source
as an executable function (strip leading and trailing whitespace); the
library `String.trim` is avoided because it does not reduce inside the
kernel. -/
def jsTrim (s : String) : String :=
  ⟨((s.data.dropWhile Char.isWhitespace).reverse.dropWhile Char.isWhitespace).reverse⟩

/-- `data?.error ?? fallback`. -/
def respError {β : Type} (data : Option (ParsedBody β)) (fallback : String) : String :=
  ((data.bind (fun d => d.errorMsg)).getD fallback)

/-- Embeds `normalizeSubjects`: `(input ?? []).map (...)`.  On values
that are already well-typed `Subject`s the field-by-field coercions of
the source are the identity, so only the `?? []` default is modelled. -/
def normalizeSubjects (input : Option (List Subject)) : List Subject :=
  input.getD []

/-- The result of running one store operation: the value the `async`
function returned, the HTTP requests it issued (in order), and the new
local state. -/
structure OpResult where
  result : Bool
  requests : List Request
  state : TabState
deriving Repr, DecidableEq

/-- Embeds `fetchSubjects`: GET the tree; throws on a rejected fetch or a
non-2xx response, otherwise returns the normalized `subjects` field. -/
def fetchSubjects (resp : FetchOutcome (List Subject)) : Except String (List Subject) :=
  match resp with
  | .thrown msg => .error msg
  | .got ok data =>
    if ok then .ok (normalizeSubjects (data.bind (fun d => d.payload)))
    else .error (respError data "Impossible de charger les questions.")

/-- Embeds `refreshSubjects`: refetch the tree; on success replace the
subjects and set the status message (when one is given) and clear the
error; on failure set the error and clear the status, leaving the
subjects untouched. -/
def refreshSubjects (st : TabState) (resp : FetchOutcome (List Subject))
    (message : Option String) : TabState :=
  match fetchSubjects resp with
  | .ok updated =>
    { st with subjects := updated,
              status := match message with | some m => some m | none => st.status,
              error := none }
  | .error msg => { st with error := some msg, status := none }

/-- `l` with the element at index `i` replaced by `f` of it (the effect
of mutating `l[i]` in place in the source). -/
def modifyIdx {α : Type} (l : List α) (i : Nat) (f : α → α) : List α :=
  match l, i with
  | [], _ => []
  | x :: xs, 0 => f x :: xs
  | x :: xs, n + 1 => x :: modifyIdx xs n f

/-- The flat per-subject layout `subjects.map(item => ({subject_uuid,
question_uuids}))` built by `reorderQuestions` before splicing. -/
def baseLayout (subjects : List Subject) : List SubjectLayout :=
  subjects.map (fun s => ⟨s.subject_uuid, s.questions.map (fun q => q.question_uuid)⟩)

/-- Embeds the layout computation of `reorderQuestions`
(QuizQuestionsTab.tsx:1175-1200, identical in QuizPage.tsx:2464-2489):
locate the subject and the question, compute the target slot, migrate to
the adjacent subject when the slot falls outside the current subject,
return `none` on the two edge no-ops, and otherwise splice the question
out of its subject and into the target position. -/
def reorderQuestionsCompute (subjects : List Subject) (subjectUuid questionUuid : String)
    (direction : Int) : Option (List SubjectLayout) :=
  match subjects.findIdx? (fun s => s.subject_uuid == subjectUuid) with
  | none => none
  | some subjectIndex =>
    match subjects[subjectIndex]? with
    | none => none
    | some subject =>
      match subject.questions.findIdx? (fun q => q.question_uuid == questionUuid) with
      | none => none
      | some questionIndex =>
        let targetPosition : Int := (questionIndex : Int) + direction
        let resolved : Option (Nat × Nat) :=
          if targetPosition < 0 then
            if subjectIndex == 0 then none
            else some (subjectIndex - 1,
              ((subjects[subjectIndex - 1]?).map (fun s => s.questions.length)).getD 0)
          else if (subject.questions.length : Int) ≤ targetPosition then
            if subjectIndex == subjects.length - 1 then none
            else some (subjectIndex + 1, 0)
          else
            some (subjectIndex, targetPosition.toNat)
        resolved.map (fun tp =>
          let layout := baseLayout subjects
          let removed := modifyIdx layout subjectIndex
            (fun s => ⟨s.subject_uuid, s.question_uuids.eraseIdx questionIndex⟩)
          modifyIdx removed tp.1
            (fun s => ⟨s.subject_uuid, s.question_uuids.insertIdx tp.2 questionUuid⟩))

/-- Embeds the full `reorderQuestions` store operation: the lock gate and
index lookups, then the PATCH of the whole layout; on success the local
tree is replaced by the normalized `subjects` array of the PATCH
response. -/
def reorderQuestionsOp (isLocked : Bool) (st : TabState) (subjectUuid questionUuid : String)
    (direction : Int) (patchResp : FetchOutcome (List Subject)) : OpResult :=
  if isLocked then ⟨false, [], st⟩
  else
    match reorderQuestionsCompute st.subjects subjectUuid questionUuid direction with
    | none => ⟨false, [], st⟩
    | some layout =>
      let req := Request.patchQuestionsOrder layout
      match patchResp with
      | .thrown msg => ⟨false, [req], { st with error := some msg, status := none }⟩
      | .got ok data =>
        if ok then
          ⟨true, [req],
            { st with subjects := normalizeSubjects (data.bind (fun d => d.payload)),
                      status := some "Questions réordonnées.", error := none }⟩
        else
          ⟨false, [req],
            { st with error := some (respError data "Impossible de réordonner les questions."),
                      status := none }⟩

/-- Embeds `reorderSubjects` (identical in both variants): locate the
subject, bound-check the adjacent slot, splice the subject into the new
slot, PATCH the full subject-uuid order, and on success replace the
local tree with the normalized `subjects` array of the PATCH response. -/
def reorderSubjectsOp (isLocked : Bool) (st : TabState) (subjectUuid : String) (direction : Int)
    (patchResp : FetchOutcome (List Subject)) : OpResult :=
  if isLocked then ⟨false, [], st⟩
  else
    match st.subjects.findIdx? (fun s => s.subject_uuid == subjectUuid) with
    | none => ⟨false, [], st⟩
    | some currentIndex =>
      let targetIndex : Int := (currentIndex : Int) + direction
      if targetIndex < 0 ∨ (st.subjects.length : Int) ≤ targetIndex then ⟨false, [], st⟩
      else
        match st.subjects[currentIndex]? with
        | none => ⟨false, [], st⟩
        | some moved =>
          let reordered := (st.subjects.eraseIdx currentIndex).insertIdx targetIndex.toNat moved
          let req := Request.patchSubjectsOrder (reordered.map (fun s => s.subject_uuid))
          match patchResp with
          | .thrown msg => ⟨false, [req], { st with error := some msg, status := none }⟩
          | .got ok data =>
            if ok then
              ⟨true, [req],
                { st with subjects := normalizeSubjects (data.bind (fun d => d.payload)),
                          status := some "Sections réordonnées.", error := none }⟩
            else
              ⟨false, [req],
                { st with
                    error := some (respError data "Impossible de réordonner les sections."),
                    status := none }⟩

/-- Embeds `updateQuestion` of QuizQuestionsTab.tsx (the variant with the
lock allow-list): empty payloads are a no-op; while locked the payload is
filtered to the allowed key `points` and the call aborts when nothing is
left; otherwise PUT the body and refetch the tree on success. -/
def updateQuestionTab (isLocked : Bool) (st : TabState) (questionUuid : String)
    (payload : List (String × Val)) (message : Option String)
    (putResp : FetchOutcome Unit) (refetchResp : FetchOutcome (List Subject)) : OpResult :=
  if payload.isEmpty then ⟨false, [], st⟩
  else
    let filtered := payload.filter (fun kv => kv.1 == "points")
    if isLocked && filtered.isEmpty then ⟨false, [], st⟩
    else
      let body := if isLocked then filtered else payload
      let statusMessage := if isLocked then some (message.getD "Barème mis à jour.") else message
      let req := Request.putQuestion questionUuid body
      match putResp with
      | .thrown msg => ⟨false, [req], { st with error := some msg, status := none }⟩
      | .got ok data =>
        if ok then
          ⟨true, [req, .getTree],
            refreshSubjects st refetchResp (some (statusMessage.getD "Question mise à jour."))⟩
        else
          ⟨false, [req],
            { st with
                error := some (respError data "Impossible de mettre à jour la question."),
                status := none }⟩

/-- Embeds `updateQuestion` of QuizPage.tsx (the variant without the
allow-list): any locked call, and any empty payload, returns `false`
without a request. -/
def updateQuestionPage (isLocked : Bool) (st : TabState) (questionUuid : String)
    (payload : List (String × Val)) (message : Option String)
    (putResp : FetchOutcome Unit) (refetchResp : FetchOutcome (List Subject)) : OpResult :=
  if isLocked || payload.isEmpty then ⟨false, [], st⟩
  else
    let req := Request.putQuestion questionUuid payload
    match putResp with
    | .thrown msg => ⟨false, [req], { st with error := some msg, status := none }⟩
    | .got ok data =>
      if ok then
        ⟨true, [req, .getTree], refreshSubjects st refetchResp message⟩
      else
        ⟨false, [req],
          { st with
              error := some (respError data "Impossible de mettre à jour la question."),
              status := none }⟩

/-- Embeds `deleteQuestion` (identical in both variants apart from the
external `onQuizUpdated` callback, which touches no modelled state). -/
def deleteQuestionOp (isLocked : Bool) (st : TabState) (questionUuid : String)
    (delResp : FetchOutcome Unit) (refetchResp : FetchOutcome (List Subject)) : OpResult :=
  if isLocked then ⟨false, [], st⟩
  else
    let req := Request.deleteQuestionReq questionUuid
    match delResp with
    | .thrown msg => ⟨false, [req], { st with error := some msg, status := none }⟩
    | .got ok data =>
      if ok then
        ⟨true, [req, .getTree], refreshSubjects st refetchResp (some "Question supprimée.")⟩
      else
        ⟨false, [req],
          { st with error := some (respError data "Impossible de supprimer la question."),
                    status := none }⟩

/-- Embeds `addAnswer` (identical in both variants). -/
def addAnswerOp (isLocked : Bool) (st : TabState) (questionUuid answerOption : String)
    (correct : Bool) (postResp : FetchOutcome Unit)
    (refetchResp : FetchOutcome (List Subject)) : OpResult :=
  if isLocked then ⟨false, [], st⟩
  else
    let req := Request.postAnswer questionUuid answerOption correct
    match postResp with
    | .thrown msg => ⟨false, [req], { st with error := some msg, status := none }⟩
    | .got ok data =>
      if ok then
        ⟨true, [req, .getTree], refreshSubjects st refetchResp (some "Réponse ajoutée.")⟩
      else
        ⟨false, [req],
          { st with error := some (respError data "Impossible d\x27ajouter la réponse."),
                    status := none }⟩

/-- The options object threaded into `updateAnswer`. -/
structure UpdateAnswerOptions where
  silent : Bool := false
  allowWhileLocked : Bool := false
  message : Option String := none
deriving Repr, DecidableEq

/-- Embeds `updateAnswer` of QuizQuestionsTab.tsx: empty payloads are a
no-op, a locked call without `allowWhileLocked` is a no-op; otherwise PUT
and, unless silent, refetch the tree on success. -/
def updateAnswerTab (isLocked : Bool) (st : TabState) (questionUuid answerUuid : String)
    (payload : List (String × Val)) (options : UpdateAnswerOptions)
    (putResp : FetchOutcome Unit) (refetchResp : FetchOutcome (List Subject)) : OpResult :=
  if payload.isEmpty then ⟨false, [], st⟩
  else if isLocked && !options.allowWhileLocked then ⟨false, [], st⟩
  else
    let req := Request.putAnswer questionUuid answerUuid payload
    match putResp with
    | .thrown msg =>
      ⟨false, [req], { st with error := some msg,
                               status := if options.silent then st.status else none }⟩
    | .got ok data =>
      if ok then
        if options.silent then ⟨true, [req], st⟩
        else
          ⟨true, [req, .getTree],
            refreshSubjects st refetchResp (some (options.message.getD "Réponse mise à jour."))⟩
      else
        ⟨false, [req],
          { st with
              error := some (respError data "Impossible de mettre à jour la réponse."),
              status := if options.silent then st.status else none }⟩

/-- Embeds `updateAnswer` of QuizPage.tsx: every locked call is a no-op
(there is no allow-list and no empty-payload check in this variant). -/
def updateAnswerPage (isLocked : Bool) (st : TabState) (questionUuid answerUuid : String)
    (payload : List (String × Val)) (options : UpdateAnswerOptions)
    (putResp : FetchOutcome Unit) (refetchResp : FetchOutcome (List Subject)) : OpResult :=
  if isLocked then ⟨false, [], st⟩
  else
    let req := Request.putAnswer questionUuid answerUuid payload
    match putResp with
    | .thrown msg =>
      ⟨false, [req], { st with error := some msg,
                               status := if options.silent then st.status else none }⟩
    | .got ok data =>
      if ok then
        if options.silent then ⟨true, [req], st⟩
        else
          ⟨true, [req, .getTree], refreshSubjects st refetchResp (some "Réponse mise à jour.")⟩
      else
        ⟨false, [req],
          { st with
              error := some (respError data "Impossible de mettre à jour la réponse."),
              status := if options.silent then st.status else none }⟩

/-- Embeds `deleteAnswer` (identical in both variants). -/
def deleteAnswerOp (isLocked : Bool) (st : TabState) (questionUuid answerUuid : String)
    (delResp : FetchOutcome Unit) (refetchResp : FetchOutcome (List Subject)) : OpResult :=
  if isLocked then ⟨false, [], st⟩
  else
    let req := Request.deleteAnswerReq questionUuid answerUuid
    match delResp with
    | .thrown msg => ⟨false, [req], { st with error := some msg, status := none }⟩
    | .got ok data =>
      if ok then
        ⟨true, [req, .getTree], refreshSubjects st refetchResp (some "Réponse supprimée.")⟩
      else
        ⟨false, [req],
          { st with error := some (respError data "Impossible de supprimer la réponse."),
                    status := none }⟩

/-- Embeds `reorderAnswers` (identical in both variants). -/
def reorderAnswersOp (isLocked : Bool) (st : TabState) (questionUuid : String)
    (answerOrder : List String) (message : Option String) (patchResp : FetchOutcome Unit)
    (refetchResp : FetchOutcome (List Subject)) : OpResult :=
  if isLocked then ⟨false, [], st⟩
  else
    let req := Request.patchAnswersOrder questionUuid answerOrder
    match patchResp with
    | .thrown msg => ⟨false, [req], { st with error := some msg, status := none }⟩
    | .got ok data =>
      if ok then
        ⟨true, [req, .getTree],
          refreshSubjects st refetchResp (some (message.getD "Ordre des réponses mis à jour."))⟩
      else
        ⟨false, [req],
          { st with error := some (respError data "Impossible de réordonner les réponses."),
                    status := none }⟩

/-- Embeds `uploadIllustration` (identical in both variants; the file and
width only enter the multipart body, which no claim inspects). -/
def uploadIllustrationOp (isLocked : Bool) (st : TabState) (questionUuid : String)
    (postResp : FetchOutcome Unit) (refetchResp : FetchOutcome (List Subject)) : OpResult :=
  if isLocked then ⟨false, [], st⟩
  else
    let req := Request.postIllustration questionUuid
    match postResp with
    | .thrown msg => ⟨false, [req], { st with error := some msg, status := none }⟩
    | .got ok data =>
      if ok then
        ⟨true, [req, .getTree], refreshSubjects st refetchResp (some "Illustration mise à jour.")⟩
      else
        ⟨false, [req],
          { st with
              error := some (respError data "Impossible de téléverser l\x27illustration."),
              status := none }⟩

/-- Embeds `removeIllustration` (identical in both variants). -/
def removeIllustrationOp (isLocked : Bool) (st : TabState) (questionUuid : String)
    (delResp : FetchOutcome Unit) (refetchResp : FetchOutcome (List Subject)) : OpResult :=
  if isLocked then ⟨false, [], st⟩
  else
    let req := Request.deleteIllustrationReq questionUuid
    match delResp with
    | .thrown msg => ⟨false, [req], { st with error := some msg, status := none }⟩
    | .got ok data =>
      if ok then
        ⟨true, [req, .getTree], refreshSubjects st refetchResp (some "Illustration supprimée.")⟩
      else
        ⟨false, [req],
          { st with
              error := some (respError data "Impossible de retirer l\x27illustration."),
              status := none }⟩

/-- Embeds the network half of `handleCreateQuestion` (identical in both
variants): clear the inline messages, POST the payload, and on success
refetch the tree with a status message naming the destination subject. -/
def createQuestionOp (st : TabState) (payload : List (String × Val)) (subjectLabel : String)
    (postResp : FetchOutcome Unit) (refetchResp : FetchOutcome (List Subject)) : OpResult :=
  let st0 := { st with error := none, status := none }
  let req := Request.postQuestion payload
  match postResp with
  | .thrown msg => ⟨false, [req], { st0 with error := some msg, status := none }⟩
  | .got ok data =>
    if ok then
      ⟨true, [req, .getTree],
        refreshSubjects st0 refetchResp
          (some ("Question ajoutée dans « " ++ subjectLabel ++ " »."))⟩
    else
      ⟨false, [req],
        { st0 with error := some (respError data "Impossible de créer la question."),
                   status := none }⟩

/-- An HTTP outcome the `catch` blocks of the store treat as a failure
of the operation's own REST call: the fetch threw, or the response was
non-2xx. -/
def requestFailed {β : Type} (o : FetchOutcome β) : Prop :=
  (∃ msg, o = .thrown msg) ∨ ∃ data, o = .got false data

/-- One `onUpdateAnswer` call issued by a per-question handler: the
target answer, the payload, and the options object. -/
structure AnswerCall where
  answerUuid : String
  payload : List (String × Val)
  options : UpdateAnswerOptions
deriving Repr, DecidableEq

/-- Embeds `handleToggleCorrect` of QuizQuestionsTab.tsx: the sequence of
`onUpdateAnswer` calls it issues.  For a `simple` question being toggled
to `true`, each other currently-correct answer is first deselected with a
silent, `allowWhileLocked` update, in answer-list order; the target
answer's update (also `allowWhileLocked`) comes last. -/
def handleToggleCorrectTab (question : Question) (answerUuid : String) (nextCorrect : Bool) :
    List AnswerCall :=
  (if question.question_type == "simple" && nextCorrect then
    (question.answers.filter (fun o => o.answer_uuid != answerUuid && o.correct)).map
      (fun o => ⟨o.answer_uuid, [("correct", Val.bool false)],
        { silent := true, allowWhileLocked := true }⟩)
  else []) ++
  [⟨answerUuid, [("correct", Val.bool nextCorrect)], { allowWhileLocked := true }⟩]

/-- Embeds `handleToggleCorrect` of QuizPage.tsx: gated on the lock, and
the options carry no `allowWhileLocked`. -/
def handleToggleCorrectPage (isLocked : Bool) (question : Question) (answerUuid : String)
    (nextCorrect : Bool) : List AnswerCall :=
  if isLocked then []
  else
    (if question.question_type == "simple" && nextCorrect then
      (question.answers.filter (fun o => o.answer_uuid != answerUuid && o.correct)).map
        (fun o => ⟨o.answer_uuid, [("correct", Val.bool false)], { silent := true }⟩)
    else []) ++
    [⟨answerUuid, [("correct", Val.bool nextCorrect)], {}⟩]

/-- Embeds `handleSaveAnswer` of QuizQuestionsTab.tsx: while locked only
`open` questions may save; an empty trimmed draft or an unchanged text is
a no-op; otherwise one `onUpdateAnswer` call with `allowWhileLocked` set
exactly when the question is `open`. -/
def handleSaveAnswerTab (isLocked : Bool) (question : Question) (answer : Answer)
    (draft : Option String) : Option AnswerCall :=
  if isLocked && question.question_type != "open" then none
  else
    let text := jsTrim (draft.getD "")
    if text == "" then none
    else
      let payload : List (String × Val) :=
        if text != answer.answer_option then [("answer_option", Val.str text)] else []
      if payload.isEmpty then none
      else some ⟨answer.answer_uuid, payload,
        { allowWhileLocked := question.question_type == "open" }⟩

/-- Modelled from the spec: the backend of this repository is not under
`src/`, so the effect of `PUT .../answers/{answerId}` on the stored
answer is taken from the REST contract of the spec (section 6): the body
fields overwrite the matching fields of the addressed answer. -/
def applyAnswerField (acc : Answer) (kv : String × Val) : Answer :=
  match kv with
  | ("correct", Val.bool b) => { acc with correct := b }
  | ("answer_option", Val.str s) => { acc with answer_option := s }
  | _ => acc

/-- Modelled from the spec: applying a whole PUT body to one answer. -/
def applyAnswerPayload (a : Answer) (payload : List (String × Val)) : Answer :=
  payload.foldl applyAnswerField a

/-- Modelled from the spec: applying one answer PUT to a question's
answer list — the addressed answer is overwritten, the rest untouched. -/
def applyAnswerPut (answers : List Answer) (answerUuid : String)
    (payload : List (String × Val)) : List Answer :=
  answers.map (fun a => if a.answer_uuid == answerUuid then applyAnswerPayload a payload else a)

/-- Modelled from the spec: the server-side answer state after the whole
sequence of handler calls completes, absent concurrent edits. -/
def runAnswerCalls (answers : List Answer) (calls : List AnswerCall) : List Answer :=
  calls.foldl (fun acc c => applyAnswerPut acc c.answerUuid c.payload) answers

/-- The effect of one handler call on one stored answer (the pointwise
view of `applyAnswerPut`). -/
def stepAnswer (a : Answer) (c : AnswerCall) : Answer :=
  if a.answer_uuid == c.answerUuid then applyAnswerPayload a c.payload else a

/-- The create-question form state (`NewQuestionState` in the source). -/
structure NewQuestionState where
  subjectChoice : String
  subjectTitle : String
  questionText : String
  questionType : String
  points : String
  numberOfLines : String
deriving Repr, DecidableEq

/-- Outcome of submitting the create-question form, up to the POST:
either silently ignored (locked or already creating), rejected by
client-side validation with an inline error message and no request, or
submitted with the built payload. -/
inductive CreateOutcome where
  | ignored
  | invalid (errorMsg : String)
  | submit (payload : List (String × Val)) (subjectLabel : String)
deriving Repr, DecidableEq

/-- The requests a create-question submission issues. -/
def createRequests : CreateOutcome → List Request
  | .submit payload _ => [.postQuestion payload]
  | _ => []

/-- `subjectById` lookup of the source. -/
def subjectById (subjects : List Subject) (uuid : String) : Option Subject :=
  subjects.find? (fun s => s.subject_uuid == uuid)

/-- Embeds the validation/payload-building prefix of
`handleCreateQuestion` (identical in both variants).  `pointsParsed` is
the result of `Number.parseFloat(points || "0")` and `linesParsed` that
of `Number.parseInt(numberOfLines || "0", 10)`, with `none` for NaN;
neither value influences which branch is taken except the NaN/≤0 check
on the number of lines. -/
def handleCreateQuestionValidate (isLocked creating : Bool) (nq : NewQuestionState)
    (subjects : List Subject) (pointsParsed : Option Int) (linesParsed : Option Int) :
    CreateOutcome :=
  if isLocked || creating then .ignored
  else
    let trimmed := jsTrim nq.questionText
    if trimmed == "" then .invalid "Renseignez l\x27énoncé de la nouvelle question."
    else
      let targetSubject :=
        if nq.subjectChoice != "" then subjectById subjects nq.subjectChoice else none
      let subjectLabel :=
        if nq.subjectChoice == "__new__" then
          (if jsTrim nq.subjectTitle == "" then "Nouvelle section" else jsTrim nq.subjectTitle)
        else ((targetSubject.map (fun s => s.subject_title)).getD "Section")
      let payload0 : List (String × Val) :=
        [("question_text", Val.str trimmed), ("question_type", Val.str nq.questionType)]
      let payload1 :=
        match pointsParsed with
        | some p => payload0 ++ [("points", Val.num p)]
        | none => payload0
      let finish : List (String × Val) → CreateOutcome := fun payload2 =>
        if nq.questionType == "open" then
          match linesParsed with
          | none => .invalid "Indiquez un nombre de lignes valide pour la réponse ouverte."
          | some n =>
            if n ≤ 0 then .invalid "Indiquez un nombre de lignes valide pour la réponse ouverte."
            else .submit (payload2 ++ [("number_of_lines", Val.num n)]) subjectLabel
        else .submit payload2 subjectLabel
      if nq.subjectChoice == "__new__" then
        let subjectTitle := jsTrim nq.subjectTitle
        if subjectTitle == "" then .invalid "Indiquez le titre de la nouvelle section."
        else finish (payload1 ++ [("subject_title", Val.str subjectTitle)])
      else
        finish
          (if nq.subjectChoice != "" then payload1 ++ [("subject_uuid", Val.str nq.subjectChoice)]
           else payload1)

theorem length_modifyIdx {α : Type} (l : List α) (i : Nat) (f : α → α) :
    (modifyIdx l i f).length = l.length := by
  induction l generalizing i with
  | nil => rfl
  | cons x xs ih =>
    cases i with
    | zero => rfl
    | succ n => simpa [modifyIdx] using ih n

theorem getElem?_modifyIdx_self {α : Type} (l : List α) (i : Nat) (f : α → α) :
    (modifyIdx l i f)[i]? = (l[i]?).map f := by
  induction l generalizing i with
  | nil => cases i <;> rfl
  | cons x xs ih =>
    cases i with
    | zero => simp [modifyIdx]
    | succ n => simpa [modifyIdx] using ih n

theorem getElem?_modifyIdx_ne {α : Type} (l : List α) (i j : Nat) (f : α → α) (h : j ≠ i) :
    (modifyIdx l i f)[j]? = l[j]? := by
  induction l generalizing i j with
  | nil => rfl
  | cons x xs ih =>
    cases i with
    | zero =>
      cases j with
      | zero => exact absurd rfl h
      | succ m => simp [modifyIdx]
    | succ n =>
      cases j with
      | zero => simp [modifyIdx]
      | succ m =>
        have hm : m ≠ n := fun he => h (by simp [he])
        simpa [modifyIdx] using ih n m hm

theorem map_modifyIdx {α β : Type} (l : List α) (i : Nat) (f : α → α) (h : α → β) (F : β → β)
    (hc : ∀ x, h (f x) = F (h x)) :
    (modifyIdx l i f).map h = modifyIdx (l.map h) i F := by
  induction l generalizing i with
  | nil => rfl
  | cons x xs ih =>
    cases i with
    | zero => simp [modifyIdx, hc]
    | succ n => simp [modifyIdx, ih]

theorem modifyIdx_of_id {α : Type} (l : List α) (i : Nat) (f : α → α)
    (hf : ∀ x, f x = x) : modifyIdx l i f = l := by
  induction l generalizing i with
  | nil => rfl
  | cons x xs ih =>
    cases i with
    | zero => simp [modifyIdx, hf]
    | succ n => simp [modifyIdx, ih]

theorem sum_map_modifyIdx {α : Type} (l : List α) (g : α → Nat) (i : Nat) (f : α → α) (x : α)
    (hx : l[i]? = some x) :
    ((modifyIdx l i f).map g).sum + g x = (l.map g).sum + g (f x) := by
  induction l generalizing i with
  | nil => simp at hx
  | cons y ys ih =>
    cases i with
    | zero =>
      simp only [List.getElem?_cons_zero, Option.some.injEq] at hx
      subst hx
      simp only [modifyIdx, List.map_cons, List.sum_cons]
      omega
    | succ n =>
      simp only [List.getElem?_cons_succ] at hx
      have := ih n hx
      simp only [modifyIdx, List.map_cons, List.sum_cons]
      omega

theorem perm_cons_eraseIdx {α : Type} {l : List α} {i : Nat} {a : α} (h : l[i]? = some a) :
    (a :: l.eraseIdx i).Perm l := by
  induction l generalizing i with
  | nil => simp at h
  | cons x xs ih =>
    cases i with
    | zero =>
      simp only [List.getElem?_cons_zero, Option.some.injEq] at h
      subst h
      exact List.Perm.refl _
    | succ n =>
      simp only [List.getElem?_cons_succ] at h
      exact ((List.Perm.swap x a _).trans ((ih h).cons x))

/-- C7: for every question id, calling `updateQuestion` with an empty
payload returns `false`, issues no network request, and leaves all local
state unchanged — in both variants. -/
theorem updateQuestion_empty_payload_noop (isLocked : Bool) (st : TabState)
    (questionUuid : String) (message : Option String) (putResp : FetchOutcome Unit)
    (refetchResp : FetchOutcome (List Subject)) :
    updateQuestionTab isLocked st questionUuid [] message putResp refetchResp
      = ⟨false, [], st⟩ ∧
    updateQuestionPage isLocked st questionUuid [] message putResp refetchResp
      = ⟨false, [], st⟩ := by
  constructor
  · simp [updateQuestionTab]
  · simp [updateQuestionPage]

/-- C4: in the allow-list variant (QuizQuestionsTab.tsx), a locked
`updateQuestion` whose payload contains a `points` entry issues a PUT
whose body is the payload filtered to the `points` key only, and a
locked update with no `points` entry returns `false` without a request;
in the other variant (QuizPage.tsx) a locked `updateQuestion` always
returns `false` without a request. -/
theorem updateQuestion_locked_allowlist
    (st : TabState) (questionUuid : String) (payload : List (String × Val))
    (message : Option String) (putResp : FetchOutcome Unit)
    (refetchResp : FetchOutcome (List Subject)) :
    ((∃ v, ("points", v) ∈ payload) →
      ∃ rest,
        (updateQuestionTab true st questionUuid payload message putResp refetchResp).requests
            = Request.putQuestion questionUuid
                (payload.filter (fun kv => kv.1 == "points")) :: rest
          ∧ ∀ kv ∈ payload.filter (fun kv => kv.1 == "points"), kv.1 = "points") ∧
    ((∀ kv ∈ payload, kv.1 ≠ "points") →
      updateQuestionTab true st questionUuid payload message putResp refetchResp
        = ⟨false, [], st⟩) ∧
    updateQuestionPage true st questionUuid payload message putResp refetchResp
      = ⟨false, [], st⟩ := by
  refine ⟨?_, ?_, by simp [updateQuestionPage]⟩
  · rintro ⟨v, hv⟩
    have hne : payload ≠ [] := by rintro rfl; simp at hv
    have hfil : ¬(payload.filter (fun kv => kv.1 == "points")).isEmpty = true := by
      have : ("points", v) ∈ payload.filter (fun kv => kv.1 == "points") :=
        List.mem_filter.mpr ⟨hv, by simp⟩
      intro he
      rw [List.isEmpty_iff] at he
      simp [he] at this
    have hpe : ¬payload.isEmpty = true := by
      simpa [List.isEmpty_iff] using hne
    refine ⟨?_, ?_, ?_⟩
    · exact match putResp with
        | .thrown _ => []
        | .got ok data => if ok then [.getTree] else []
    · simp only [updateQuestionTab, hpe, hfil, if_false, Bool.and_true, Bool.true_and,
        if_true, Bool.false_eq_true, and_false]
      cases putResp with
      | thrown msg => simp
      | got ok data => cases ok <;> simp
    · intro kv hkv
      have := (List.mem_filter.mp hkv).2
      simpa using this
  · intro hnone
    have hfil : (payload.filter (fun kv => kv.1 == "points")) = [] := by
      rw [List.filter_eq_nil_iff]
      intro kv hkv
      simpa using hnone kv hkv
    by_cases hpe : payload.isEmpty
    · simp [updateQuestionTab, hpe]
    · simp [updateQuestionTab, hpe, hfil]

/-- C4 witness: concrete locked updates — one with a `points` entry
(PUT issued with the filtered body), one without (no request), and the
other variant refusing outright. -/
theorem updateQuestion_locked_allowlist_witness :
    (∃ rest,
      (updateQuestionTab true ⟨[], none, none⟩ "q"
          [("points", Val.num 2), ("question_text", Val.str "t")] none
          (.got true none) (.got true none)).requests
        = Request.putQuestion "q"
            ([("points", Val.num 2), ("question_text", Val.str "t")].filter
              (fun kv => kv.1 == "points")) :: rest
      ∧ ∀ kv ∈ ([("points", Val.num 2), ("question_text", Val.str "t")].filter
          (fun kv => kv.1 == "points")), kv.1 = "points") ∧
    updateQuestionTab true ⟨[], none, none⟩ "q" [("question_text", Val.str "t")] none
      (.got true none) (.got true none) = ⟨false, [], ⟨[], none, none⟩⟩ ∧
    updateQuestionPage true ⟨[], none, none⟩ "q" [("points", Val.num 2)] none
      (.got true none) (.got true none) = ⟨false, [], ⟨[], none, none⟩⟩ :=
  ⟨(updateQuestion_locked_allowlist ⟨[], none, none⟩ "q"
      [("points", Val.num 2), ("question_text", Val.str "t")] none
      (.got true none) (.got true none)).1 ⟨Val.num 2, by simp⟩,
   (updateQuestion_locked_allowlist ⟨[], none, none⟩ "q"
      [("question_text", Val.str "t")] none
      (.got true none) (.got true none)).2.1 (by simp),
   (updateQuestion_locked_allowlist ⟨[], none, none⟩ "q"
      [("points", Val.num 2)] none
      (.got true none) (.got true none)).2.2⟩

/-- C8: submitting the create-question form (not locked, not already
creating) with `subjectChoice = "__new__"` and a subject title that is
empty after trimming stops at client-side validation: an inline error
message is set and no request is issued, so the subject tree is never
touched. -/
theorem createQuestion_new_subject_empty_title
    (nq : NewQuestionState) (subjects : List Subject) (pointsParsed linesParsed : Option Int)
    (hchoice : nq.subjectChoice = "__new__") (htitle : jsTrim nq.subjectTitle = "") :
    ∃ msg,
      handleCreateQuestionValidate false false nq subjects pointsParsed linesParsed
          = .invalid msg ∧
      createRequests (handleCreateQuestionValidate false false nq subjects pointsParsed
          linesParsed) = [] := by
  by_cases htext : jsTrim nq.questionText = ""
  · exact ⟨"Renseignez l\x27énoncé de la nouvelle question.", by
      simp [handleCreateQuestionValidate, htext, createRequests]⟩
  · exact ⟨"Indiquez le titre de la nouvelle section.", by
      simp [handleCreateQuestionValidate, htext, hchoice, htitle, createRequests]⟩

/-- C8 witness: a concrete form state with a brand-new subject and a
whitespace-only title. -/
theorem createQuestion_new_subject_empty_title_witness :
    ∃ msg,
      handleCreateQuestionValidate false false
          ⟨"__new__", "  ", "Énoncé", "simple", "1", ""⟩ [] (some 1) none
        = .invalid msg ∧
      createRequests (handleCreateQuestionValidate false false
          ⟨"__new__", "  ", "Énoncé", "simple", "1", ""⟩ [] (some 1) none) = [] :=
  createQuestion_new_subject_empty_title
    ⟨"__new__", "  ", "Énoncé", "simple", "1", ""⟩ [] (some 1) none rfl (by decide)

/-- C6 counterexample: with the single subject holding `[Q2, Q1]`
(the state after moving Q1 down), `reorder(Q2, down)` is NOT a no-op:
Q2 sits at index 0, so the code computes the swapped layout `[Q1, Q2]`
and issues a PATCH. -/
theorem reorder_q2_down_not_noop :
    reorderQuestionsCompute
        [⟨"A", "Algebra", 0, [⟨"Q2", "simple", "A", []⟩, ⟨"Q1", "simple", "A", []⟩]⟩]
        "A" "Q2" 1 = some [⟨"A", ["Q1", "Q2"]⟩] ∧
    (reorderQuestionsOp false
        ⟨[⟨"A", "Algebra", 0, [⟨"Q2", "simple", "A", []⟩, ⟨"Q1", "simple", "A", []⟩]⟩],
         none, none⟩
        "A" "Q2" 1 (.got true none)).requests ≠ [] := by
  constructor
  · decide
  · decide

/-- C6 (amended): `reorder(Q1, down)` on the single subject `[Q1, Q2]`
computes the layout `[Q2, Q1]`; afterwards Q1 — not Q2 — is the last
question of the last subject, and `reorder(Q1, down)` on `[Q2, Q1]` is
the no-op: it returns `false`, leaves the state unchanged and sends no
request. -/
theorem reorder_single_subject_down_sequence :
    reorderQuestionsCompute
        [⟨"A", "Algebra", 0, [⟨"Q1", "simple", "A", []⟩, ⟨"Q2", "simple", "A", []⟩]⟩]
        "A" "Q1" 1 = some [⟨"A", ["Q2", "Q1"]⟩] ∧
    ∀ patchResp,
      reorderQuestionsOp false
          ⟨[⟨"A", "Algebra", 0, [⟨"Q2", "simple", "A", []⟩, ⟨"Q1", "simple", "A", []⟩]⟩],
           none, none⟩
          "A" "Q1" 1 patchResp
        = ⟨false, [],
            ⟨[⟨"A", "Algebra", 0, [⟨"Q2", "simple", "A", []⟩, ⟨"Q1", "simple", "A", []⟩]⟩],
             none, none⟩⟩ := by
  constructor
  · decide
  · intro patchResp
    rfl

/-- C3 counterexample: a successful `reorderSubjects` does not refetch
the tree via GET — it issues only the PATCH and installs the `subjects`
array carried in the PATCH response body as the new local tree. -/
theorem reorderSubjects_no_refetch :
    (reorderSubjectsOp false
        ⟨[⟨"A", "Alg", 0, []⟩, ⟨"B", "Bio", 1, []⟩], none, none⟩ "A" 1
        (.got true (some ⟨some [⟨"B", "Bio", 0, []⟩, ⟨"A", "Alg", 1, []⟩], none⟩))).result
      = true ∧
    Request.getTree ∉
      (reorderSubjectsOp false
        ⟨[⟨"A", "Alg", 0, []⟩, ⟨"B", "Bio", 1, []⟩], none, none⟩ "A" 1
        (.got true (some ⟨some [⟨"B", "Bio", 0, []⟩, ⟨"A", "Alg", 1, []⟩], none⟩))).requests ∧
    (reorderSubjectsOp false
        ⟨[⟨"A", "Alg", 0, []⟩, ⟨"B", "Bio", 1, []⟩], none, none⟩ "A" 1
        (.got true (some ⟨some [⟨"B", "Bio", 0, []⟩, ⟨"A", "Alg", 1, []⟩], none⟩))).state.subjects
      = [⟨"B", "Bio", 0, []⟩, ⟨"A", "Alg", 1, []⟩] := by
  refine ⟨by decide, by decide, by decide⟩

/-- C5 counterexample: while the quiz is locked, toggling the correct
flag on a question whose type is `simple` (not `open`) does send
requests: `handleToggleCorrect` passes `allowWhileLocked` on every call,
so the locked `updateAnswer` issues the PUT and returns `true`. -/
theorem locked_toggle_nonopen_sends_request :
    ("simple" : String) ≠ "open" ∧
    handleToggleCorrectTab ⟨"q1", "simple", "A",
        [⟨"a1", "x", true, 0⟩, ⟨"a2", "y", false, 1⟩]⟩ "a2" true
      = [⟨"a1", [("correct", Val.bool false)], { silent := true, allowWhileLocked := true }⟩,
         ⟨"a2", [("correct", Val.bool true)], { allowWhileLocked := true }⟩] ∧
    (updateAnswerTab true ⟨[], none, none⟩ "q1" "a1" [("correct", Val.bool false)]
        { silent := true, allowWhileLocked := true } (.got true none) (.got true none)).result
      = true ∧
    (updateAnswerTab true ⟨[], none, none⟩ "q1" "a1" [("correct", Val.bool false)]
        { silent := true, allowWhileLocked := true } (.got true none) (.got true none)).requests
      ≠ [] := by
  refine ⟨by decide, by decide, by decide, by decide⟩

/-- C10 counterexample: a 2xx response whose body is not parseable JSON
is NOT treated as a failure: `reorderSubjects` returns `true` and
replaces the local subjects with the empty normalization of the missing
body, so the tree is not left as it was. -/
theorem reorderSubjects_unparseable_body_success :
    (reorderSubjectsOp false
        ⟨[⟨"A", "Alg", 0, []⟩, ⟨"B", "Bio", 1, []⟩], none, none⟩ "A" 1
        (.got true none)).result = true ∧
    (reorderSubjectsOp false
        ⟨[⟨"A", "Alg", 0, []⟩, ⟨"B", "Bio", 1, []⟩], none, none⟩ "A" 1
        (.got true none)).state.subjects = [] ∧
    ([⟨"A", "Alg", 0, []⟩, ⟨"B", "Bio", 1, []⟩] : List Subject) ≠ [] := by
  refine ⟨by decide, by decide, by decide⟩

theorem applyAnswerField_uuid (a : Answer) (kv : String × Val) :
    (applyAnswerField a kv).answer_uuid = a.answer_uuid := by
  unfold applyAnswerField
  split <;> rfl

theorem applyAnswerPayload_uuid (payload : List (String × Val)) (a : Answer) :
    (applyAnswerPayload a payload).answer_uuid = a.answer_uuid := by
  induction payload generalizing a with
  | nil => rfl
  | cons kv rest ih => exact (ih (applyAnswerField a kv)).trans (applyAnswerField_uuid a kv)

theorem stepAnswer_uuid (a : Answer) (c : AnswerCall) :
    (stepAnswer a c).answer_uuid = a.answer_uuid := by
  unfold stepAnswer
  split
  · exact applyAnswerPayload_uuid _ _
  · rfl

theorem runAnswerCalls_pointwise (calls : List AnswerCall) (answers : List Answer) :
    runAnswerCalls answers calls = answers.map (fun a => calls.foldl stepAnswer a) := by
  induction calls generalizing answers with
  | nil => simp [runAnswerCalls]
  | cons c cs ih =>
    have h1 : runAnswerCalls answers (c :: cs)
        = runAnswerCalls (applyAnswerPut answers c.answerUuid c.payload) cs := rfl
    rw [h1, ih]
    simp only [applyAnswerPut, List.map_map]
    rfl

theorem foldl_stepAnswer_not_mentioned (cs : List AnswerCall) (a : Answer)
    (h : ∀ c ∈ cs, c.answerUuid ≠ a.answer_uuid) :
    cs.foldl stepAnswer a = a := by
  induction cs with
  | nil => rfl
  | cons c cs ih =>
    have hc : ¬a.answer_uuid = c.answerUuid := fun he => h c (by simp) he.symm
    rw [List.foldl_cons]
    have hs : stepAnswer a c = a := by simp [stepAnswer, hc]
    rw [hs]
    exact ih (fun c2 h2 => h c2 (List.mem_cons_of_mem _ h2))

theorem foldl_stepAnswer_deselects (cs : List AnswerCall) (a : Answer)
    (hpl : ∀ c ∈ cs, c.payload = [("correct", Val.bool false)]) :
    cs.foldl stepAnswer a
      = if cs.any (fun c => a.answer_uuid == c.answerUuid) then { a with correct := false }
        else a := by
  induction cs generalizing a with
  | nil => simp
  | cons c cs ih =>
    rw [List.foldl_cons]
    by_cases hm : a.answer_uuid = c.answerUuid
    · have hp := hpl c (by simp)
      have hs : stepAnswer a c = { a with correct := false } := by
        simp [stepAnswer, hm, hp, applyAnswerPayload, applyAnswerField]
      rw [hs, ih _ (fun c2 h2 => hpl c2 (List.mem_cons_of_mem _ h2))]
      by_cases hany : cs.any (fun c2 =>
          ({ a with correct := false } : Answer).answer_uuid == c2.answerUuid)
      · simp only [hany, if_true]
        simp [hm]
      · simp only [hany, if_false]
        simp at hany
        simp [hm, List.any_eq]
    · have hs : stepAnswer a c = a := by simp [stepAnswer, hm]
      rw [hs, ih _ (fun c2 h2 => hpl c2 (List.mem_cons_of_mem _ h2))]
      simp [hm]

theorem toggle_final_answer (question : Question) (answer : Answer)
    (hty : question.question_type = "simple")
    (a : Answer) (ha : a ∈ question.answers) :
    (handleToggleCorrectTab question answer.answer_uuid true).foldl stepAnswer a
      = { a with correct := a.answer_uuid == answer.answer_uuid } := by
  have hcalls : handleToggleCorrectTab question answer.answer_uuid true
      = ((question.answers.filter
            (fun o => o.answer_uuid != answer.answer_uuid && o.correct)).map
          (fun o => ⟨o.answer_uuid, [("correct", Val.bool false)],
            { silent := true, allowWhileLocked := true }⟩))
        ++ [⟨answer.answer_uuid, [("correct", Val.bool true)],
            { allowWhileLocked := true }⟩] := by
    simp [handleToggleCorrectTab, hty]
  rw [hcalls, List.foldl_append]
  set dcalls := (question.answers.filter
      (fun o => o.answer_uuid != answer.answer_uuid && o.correct)).map
    (fun o => (⟨o.answer_uuid, [("correct", Val.bool false)],
      { silent := true, allowWhileLocked := true }⟩ : AnswerCall)) with hd
  have hpl : ∀ c ∈ dcalls, c.payload = [("correct", Val.bool false)] := by
    intro c hc
    rw [hd] at hc
    obtain ⟨o, _, rfl⟩ := List.mem_map.mp hc
    rfl
  by_cases htgt : a.answer_uuid = answer.answer_uuid
  · have hnone : ∀ c ∈ dcalls, c.answerUuid ≠ a.answer_uuid := by
      intro c hc
      rw [hd] at hc
      obtain ⟨o, ho, rfl⟩ := List.mem_map.mp hc
      have := (List.mem_filter.mp ho).2
      simp only [Bool.and_eq_true, bne_iff_ne] at this
      simpa [htgt] using this.1
    rw [foldl_stepAnswer_not_mentioned dcalls a hnone]
    rw [List.foldl_cons, List.foldl_nil]
    have : stepAnswer a ⟨answer.answer_uuid, [("correct", Val.bool true)],
        { allowWhileLocked := true }⟩ = { a with correct := true } := by
      simp [stepAnswer, htgt, applyAnswerPayload, applyAnswerField]
    rw [this]
    simp [htgt]
  · have hlast : stepAnswer ({ a with correct := false } : Answer)
        ⟨answer.answer_uuid, [("correct", Val.bool true)], { allowWhileLocked := true }⟩
          = { a with correct := false } := by
      simp [stepAnswer, htgt]
    have hlast2 : stepAnswer a
        ⟨answer.answer_uuid, [("correct", Val.bool true)], { allowWhileLocked := true }⟩
          = a := by
      simp [stepAnswer, htgt]
    rw [foldl_stepAnswer_deselects dcalls a hpl]
    by_cases hany : dcalls.any (fun c => a.answer_uuid == c.answerUuid) = true
    · rw [if_pos hany, List.foldl_cons, List.foldl_nil, hlast]
      simp [htgt]
    · rw [if_neg hany, List.foldl_cons, List.foldl_nil, hlast2]
      have hcor : a.correct = false := by
        by_contra hcor
        rw [Bool.not_eq_false] at hcor
        apply hany
        rw [List.any_eq_true]
        refine ⟨⟨a.answer_uuid, [("correct", Val.bool false)],
          { silent := true, allowWhileLocked := true }⟩, ?_, by simp⟩
        rw [hd]
        refine List.mem_map.mpr ⟨a, ?_, rfl⟩
        rw [List.mem_filter]
        exact ⟨ha, by simp [htgt, hcor]⟩
      have : (a.answer_uuid == answer.answer_uuid) = false := by simp [htgt]
      rw [this]
      cases a with
      | mk u o c ord =>
        simp only at hcor
        rw [hcor]

/-- C2: toggling an answer of a `simple` question to `correct = true`
first issues a separate silent `correct := false` update for each other
currently-correct answer, in answer-list order, then the update setting
the target answer to `correct := true`; after the whole sequence is
applied (absent concurrent edits) every answer's flag equals "is the
target", so exactly one answer of the question is correct. -/
theorem simple_toggle_single_correct
    (question : Question) (answer : Answer)
    (hty : question.question_type = "simple")
    (hmem : answer ∈ question.answers)
    (hnodup : (question.answers.map (fun a => a.answer_uuid)).Nodup) :
    handleToggleCorrectTab question answer.answer_uuid true
      = (question.answers.filter
            (fun o => o.answer_uuid != answer.answer_uuid && o.correct)).map
          (fun o => ⟨o.answer_uuid, [("correct", Val.bool false)],
            { silent := true, allowWhileLocked := true }⟩)
        ++ [⟨answer.answer_uuid, [("correct", Val.bool true)],
            { allowWhileLocked := true }⟩] ∧
    (∀ a ∈ runAnswerCalls question.answers
        (handleToggleCorrectTab question answer.answer_uuid true),
      a.correct = (a.answer_uuid == answer.answer_uuid)) ∧
    ((runAnswerCalls question.answers
        (handleToggleCorrectTab question answer.answer_uuid true)).filter
          (fun a => a.correct)).length = 1 := by
  refine ⟨by simp [handleToggleCorrectTab, hty], ?_, ?_⟩
  · intro x hx
    rw [runAnswerCalls_pointwise] at hx
    obtain ⟨a, ha, rfl⟩ := List.mem_map.mp hx
    rw [toggle_final_answer question answer hty a ha]
  · rw [runAnswerCalls_pointwise, List.filter_map, List.length_map,
      ← List.countP_eq_length_filter]
    have hcongr : List.countP
        ((fun a => a.correct) ∘ (fun a => (handleToggleCorrectTab question
          answer.answer_uuid true).foldl stepAnswer a)) question.answers
        = List.countP (fun a => a.answer_uuid == answer.answer_uuid) question.answers := by
      apply List.countP_congr
      intro a ha
      have hfa := toggle_final_answer question answer hty a ha
      simp only [Function.comp_apply]
      rw [hfa]
    rw [hcongr]
    have hcount : (question.answers.map (fun a => a.answer_uuid)).count answer.answer_uuid
        = 1 :=
      List.count_eq_one_of_mem hnodup (List.mem_map.mpr ⟨answer, hmem, rfl⟩)
    rw [List.count, List.countP_map] at hcount
    exact hcount

/-- C2 witness: a concrete `simple` question with two answers, the first
currently correct; toggling the second yields the deselect-then-select
sequence and a final state with exactly the second answer correct. -/
theorem simple_toggle_single_correct_witness :
    ((runAnswerCalls
        [⟨"a1", "x", true, 0⟩, ⟨"a2", "y", false, 1⟩]
        (handleToggleCorrectTab
          ⟨"q1", "simple", "A", [⟨"a1", "x", true, 0⟩, ⟨"a2", "y", false, 1⟩]⟩
          (Answer.answer_uuid ⟨"a2", "y", false, 1⟩) true)).filter
      (fun a => a.correct)).length = 1 :=
  (simple_toggle_single_correct
    ⟨"q1", "simple", "A", [⟨"a1", "x", true, 0⟩, ⟨"a2", "y", false, 1⟩]⟩
    ⟨"a2", "y", false, 1⟩ rfl (by decide) (by decide)).2.2

/-- C5 (amended): while the quiz is locked, answer TEXT edits are gated
on the question type — `handleSaveAnswer` issues no call unless the
question is `open` — and a locked `updateAnswer` without the
`allowWhileLocked` option returns `false` with no request; correct-flag
toggles, however, set `allowWhileLocked` with a non-empty payload on
every call regardless of the question type, so they are sent to the
server even while locked. -/
theorem locked_answer_edit_policy
    (question : Question) (answer : Answer) (draft : Option String)
    (st : TabState) (qU aU : String) (payload : List (String × Val))
    (opts : UpdateAnswerOptions) (putResp : FetchOutcome Unit)
    (refetch : FetchOutcome (List Subject)) :
    (question.question_type ≠ "open" →
      handleSaveAnswerTab true question answer draft = none) ∧
    (opts.allowWhileLocked = false →
      updateAnswerTab true st qU aU payload opts putResp refetch = ⟨false, [], st⟩) ∧
    (∀ nextCorrect : Bool,
      ∀ c ∈ handleToggleCorrectTab question answer.answer_uuid nextCorrect,
        c.options.allowWhileLocked = true ∧ c.payload ≠ []) := by
  refine ⟨?_, ?_, ?_⟩
  · intro hty
    simp [handleSaveAnswerTab, hty]
  · intro hal
    by_cases hp : payload.isEmpty
    · simp [updateAnswerTab, hp]
    · simp [updateAnswerTab, hp, hal]
  · intro nextCorrect c hc
    unfold handleToggleCorrectTab at hc
    rcases List.mem_append.mp hc with h | h
    · split at h
      · obtain ⟨o, _, rfl⟩ := List.mem_map.mp h
        exact ⟨rfl, by simp⟩
      · simp at h
    · simp only [List.mem_singleton] at h
      subst h
      exact ⟨rfl, by simp⟩

/-- C5 witness: a locked text edit on a `simple` question is dropped,
and a locked plain `updateAnswer` (no `allowWhileLocked`) is refused. -/
theorem locked_answer_edit_policy_witness :
    handleSaveAnswerTab true ⟨"q1", "simple", "A", []⟩ ⟨"a1", "x", false, 0⟩ (some "new")
      = none ∧
    updateAnswerTab true ⟨[], none, none⟩ "q1" "a1" [("correct", Val.bool true)] {}
      (.got true none) (.got true none) = ⟨false, [], ⟨[], none, none⟩⟩ :=
  ⟨(locked_answer_edit_policy ⟨"q1", "simple", "A", []⟩ ⟨"a1", "x", false, 0⟩ (some "new")
      ⟨[], none, none⟩ "q1" "a1" [("correct", Val.bool true)] {}
      (.got true none) (.got true none)).1 (by decide),
   (locked_answer_edit_policy ⟨"q1", "simple", "A", []⟩ ⟨"a1", "x", false, 0⟩ (some "new")
      ⟨[], none, none⟩ "q1" "a1" [("correct", Val.bool true)] {}
      (.got true none) (.got true none)).2.1 rfl⟩

/-- C3 (amended): after a successful REST call, every mutation except
the two order PATCHes refetches the whole tree via GET and installs the
refetched result (`updateAnswer` only when not silent); the two reorder
operations issue no GET and instead install the normalized `subjects`
array carried in their PATCH response; a silent answer update never
refreshes and leaves the local tree untouched. -/
theorem mutation_resync_discipline
    (st : TabState) (q a s lbl : String) (cor : Bool)
    (payload : List (String × Val)) (m : Option String) (opts : UpdateAnswerOptions)
    (order : List String) (direction : Int)
    (mo : FetchOutcome Unit) (patch : FetchOutcome (List Subject))
    (refetch : FetchOutcome (List Subject)) (t : List Subject)
    (hfetch : fetchSubjects refetch = .ok t) :
    ((createQuestionOp st payload lbl mo refetch).result = true →
      (createQuestionOp st payload lbl mo refetch).state.subjects = t ∧
      Request.getTree ∈ (createQuestionOp st payload lbl mo refetch).requests) ∧
    ((updateQuestionTab false st q payload m mo refetch).result = true →
      (updateQuestionTab false st q payload m mo refetch).state.subjects = t ∧
      Request.getTree ∈ (updateQuestionTab false st q payload m mo refetch).requests) ∧
    ((deleteQuestionOp false st q mo refetch).result = true →
      (deleteQuestionOp false st q mo refetch).state.subjects = t ∧
      Request.getTree ∈ (deleteQuestionOp false st q mo refetch).requests) ∧
    ((addAnswerOp false st q a cor mo refetch).result = true →
      (addAnswerOp false st q a cor mo refetch).state.subjects = t ∧
      Request.getTree ∈ (addAnswerOp false st q a cor mo refetch).requests) ∧
    (opts.silent = false →
      (updateAnswerTab false st q a payload opts mo refetch).result = true →
      (updateAnswerTab false st q a payload opts mo refetch).state.subjects = t ∧
      Request.getTree ∈ (updateAnswerTab false st q a payload opts mo refetch).requests) ∧
    ((deleteAnswerOp false st q a mo refetch).result = true →
      (deleteAnswerOp false st q a mo refetch).state.subjects = t ∧
      Request.getTree ∈ (deleteAnswerOp false st q a mo refetch).requests) ∧
    ((reorderAnswersOp false st q order m mo refetch).result = true →
      (reorderAnswersOp false st q order m mo refetch).state.subjects = t ∧
      Request.getTree ∈ (reorderAnswersOp false st q order m mo refetch).requests) ∧
    ((uploadIllustrationOp false st q mo refetch).result = true →
      (uploadIllustrationOp false st q mo refetch).state.subjects = t ∧
      Request.getTree ∈ (uploadIllustrationOp false st q mo refetch).requests) ∧
    ((removeIllustrationOp false st q mo refetch).result = true →
      (removeIllustrationOp false st q mo refetch).state.subjects = t ∧
      Request.getTree ∈ (removeIllustrationOp false st q mo refetch).requests) ∧
    ((reorderSubjectsOp false st s direction patch).result = true →
      Request.getTree ∉ (reorderSubjectsOp false st s direction patch).requests ∧
      ∃ data, patch = .got true data ∧
        (reorderSubjectsOp false st s direction patch).state.subjects
          = normalizeSubjects (data.bind (fun d => d.payload))) ∧
    ((reorderQuestionsOp false st s q direction patch).result = true →
      Request.getTree ∉ (reorderQuestionsOp false st s q direction patch).requests ∧
      ∃ data, patch = .got true data ∧
        (reorderQuestionsOp false st s q direction patch).state.subjects
          = normalizeSubjects (data.bind (fun d => d.payload))) ∧
    (opts.silent = true →
      Request.getTree ∉ (updateAnswerTab false st q a payload opts mo refetch).requests ∧
      ((updateAnswerTab false st q a payload opts mo refetch).result = true →
        (updateAnswerTab false st q a payload opts mo refetch).state.subjects
          = st.subjects)) := by
  refine ⟨?_, ?_, ?_, ?_, ?_, ?_, ?_, ?_, ?_, ?_, ?_, ?_⟩
  · intro hres
    cases mo with
    | thrown msg => simp [createQuestionOp] at hres
    | got ok data =>
      cases ok with
      | false => simp [createQuestionOp] at hres
      | true =>
        exact ⟨by simp [createQuestionOp, refreshSubjects, hfetch], by simp [createQuestionOp]⟩
  · intro hres
    by_cases hp : payload.isEmpty
    · simp [updateQuestionTab, hp] at hres
    · cases mo with
      | thrown msg => simp [updateQuestionTab, hp] at hres
      | got ok data =>
        cases ok with
        | false => simp [updateQuestionTab, hp] at hres
        | true =>
          exact ⟨by simp [updateQuestionTab, hp, refreshSubjects, hfetch],
            by simp [updateQuestionTab, hp]⟩
  · intro hres
    cases mo with
    | thrown msg => simp [deleteQuestionOp] at hres
    | got ok data =>
      cases ok with
      | false => simp [deleteQuestionOp] at hres
      | true =>
        exact ⟨by simp [deleteQuestionOp, refreshSubjects, hfetch], by simp [deleteQuestionOp]⟩
  · intro hres
    cases mo with
    | thrown msg => simp [addAnswerOp] at hres
    | got ok data =>
      cases ok with
      | false => simp [addAnswerOp] at hres
      | true =>
        exact ⟨by simp [addAnswerOp, refreshSubjects, hfetch], by simp [addAnswerOp]⟩
  · intro hsil hres
    by_cases hp : payload.isEmpty
    · simp [updateAnswerTab, hp] at hres
    · cases mo with
      | thrown msg => simp [updateAnswerTab, hp] at hres
      | got ok data =>
        cases ok with
        | false => simp [updateAnswerTab, hp] at hres
        | true =>
          exact ⟨by simp [updateAnswerTab, hp, hsil, refreshSubjects, hfetch],
            by simp [updateAnswerTab, hp, hsil]⟩
  · intro hres
    cases mo with
    | thrown msg => simp [deleteAnswerOp] at hres
    | got ok data =>
      cases ok with
      | false => simp [deleteAnswerOp] at hres
      | true =>
        exact ⟨by simp [deleteAnswerOp, refreshSubjects, hfetch], by simp [deleteAnswerOp]⟩
  · intro hres
    cases mo with
    | thrown msg => simp [reorderAnswersOp] at hres
    | got ok data =>
      cases ok with
      | false => simp [reorderAnswersOp] at hres
      | true =>
        exact ⟨by simp [reorderAnswersOp, refreshSubjects, hfetch],
          by simp [reorderAnswersOp]⟩
  · intro hres
    cases mo with
    | thrown msg => simp [uploadIllustrationOp] at hres
    | got ok data =>
      cases ok with
      | false => simp [uploadIllustrationOp] at hres
      | true =>
        exact ⟨by simp [uploadIllustrationOp, refreshSubjects, hfetch],
          by simp [uploadIllustrationOp]⟩
  · intro hres
    cases mo with
    | thrown msg => simp [removeIllustrationOp] at hres
    | got ok data =>
      cases ok with
      | false => simp [removeIllustrationOp] at hres
      | true =>
        exact ⟨by simp [removeIllustrationOp, refreshSubjects, hfetch],
          by simp [removeIllustrationOp]⟩
  · intro hres
    rcases hfi : st.subjects.findIdx? (fun s2 => s2.subject_uuid == s) with _ | ci
    · simp [reorderSubjectsOp, hfi] at hres
    · by_cases hb : ((ci : Int) + direction < 0 ∨
          (st.subjects.length : Int) ≤ (ci : Int) + direction)
      · simp [reorderSubjectsOp, hfi, hb] at hres
      · rcases hel : st.subjects[ci]? with _ | moved
        · simp [reorderSubjectsOp, hfi, hb, hel] at hres
        · cases patch with
          | thrown msg => simp [reorderSubjectsOp, hfi, hb, hel] at hres
          | got ok data =>
            cases ok with
            | false => simp [reorderSubjectsOp, hfi, hb, hel] at hres
            | true =>
              exact ⟨by simp [reorderSubjectsOp, hfi, hb, hel],
                data, rfl, by simp [reorderSubjectsOp, hfi, hb, hel]⟩
  · intro hres
    rcases hcomp : reorderQuestionsCompute st.subjects s q direction with _ | L
    · simp [reorderQuestionsOp, hcomp] at hres
    · cases patch with
      | thrown msg => simp [reorderQuestionsOp, hcomp] at hres
      | got ok data =>
        cases ok with
        | false => simp [reorderQuestionsOp, hcomp] at hres
        | true =>
          exact ⟨by simp [reorderQuestionsOp, hcomp],
            data, rfl, by simp [reorderQuestionsOp, hcomp]⟩
  · intro hsil
    by_cases hp : payload.isEmpty
    · simp [updateAnswerTab, hp]
    · cases mo with
      | thrown msg => simp [updateAnswerTab, hp]
      | got ok data =>
        cases ok with
        | false => simp [updateAnswerTab, hp]
        | true => simp [updateAnswerTab, hp, hsil]

/-- C3 witness: with a concrete successful environment, a question
update refetches via GET and installs the fetched tree. -/
theorem mutation_resync_discipline_witness :
    (updateQuestionTab false ⟨[], none, none⟩ "q" [("points", Val.num 1)] none
        (.got true none) (.got true (some ⟨some [⟨"A", "Alg", 0, []⟩], none⟩))).state.subjects
      = [⟨"A", "Alg", 0, []⟩] ∧
    Request.getTree ∈ (updateQuestionTab false ⟨[], none, none⟩ "q" [("points", Val.num 1)]
        none (.got true none)
        (.got true (some ⟨some [⟨"A", "Alg", 0, []⟩], none⟩))).requests :=
  (mutation_resync_discipline ⟨[], none, none⟩ "q" "a" "s" "lbl" true
    [("points", Val.num 1)] none {} [] 1 (.got true none) (.got true none)
    (.got true (some ⟨some [⟨"A", "Alg", 0, []⟩], none⟩)) [⟨"A", "Alg", 0, []⟩]
    rfl).2.1 (by decide)

/-- C10 (amended): every listed store mutation is atomic on failure of
its own REST call — when the fetch throws or the response is non-2xx the
operation returns `false` and the local subjects list is exactly what it
was (only the status/error strings change).  A 2xx response with an
unparseable body, by contrast, is treated as success. -/
theorem mutation_failure_atomicity
    (isLocked : Bool) (st : TabState) (q a s : String) (cor : Bool)
    (payload : List (String × Val)) (m : Option String) (opts : UpdateAnswerOptions)
    (order : List String) (direction : Int)
    (mo : FetchOutcome Unit) (patch : FetchOutcome (List Subject))
    (refetch : FetchOutcome (List Subject))
    (hmo : requestFailed mo) (hpatch : requestFailed patch) :
    ((updateQuestionTab isLocked st q payload m mo refetch).result = false ∧
      (updateQuestionTab isLocked st q payload m mo refetch).state.subjects = st.subjects) ∧
    ((updateQuestionPage isLocked st q payload m mo refetch).result = false ∧
      (updateQuestionPage isLocked st q payload m mo refetch).state.subjects = st.subjects) ∧
    ((deleteQuestionOp isLocked st q mo refetch).result = false ∧
      (deleteQuestionOp isLocked st q mo refetch).state.subjects = st.subjects) ∧
    ((addAnswerOp isLocked st q a cor mo refetch).result = false ∧
      (addAnswerOp isLocked st q a cor mo refetch).state.subjects = st.subjects) ∧
    ((updateAnswerTab isLocked st q a payload opts mo refetch).result = false ∧
      (updateAnswerTab isLocked st q a payload opts mo refetch).state.subjects
        = st.subjects) ∧
    ((updateAnswerPage isLocked st q a payload opts mo refetch).result = false ∧
      (updateAnswerPage isLocked st q a payload opts mo refetch).state.subjects
        = st.subjects) ∧
    ((deleteAnswerOp isLocked st q a mo refetch).result = false ∧
      (deleteAnswerOp isLocked st q a mo refetch).state.subjects = st.subjects) ∧
    ((reorderAnswersOp isLocked st q order m mo refetch).result = false ∧
      (reorderAnswersOp isLocked st q order m mo refetch).state.subjects = st.subjects) ∧
    ((reorderSubjectsOp isLocked st s direction patch).result = false ∧
      (reorderSubjectsOp isLocked st s direction patch).state.subjects = st.subjects) ∧
    ((reorderQuestionsOp isLocked st s q direction patch).result = false ∧
      (reorderQuestionsOp isLocked st s q direction patch).state.subjects = st.subjects) := by
  refine ⟨?_, ?_, ?_, ?_, ?_, ?_, ?_, ?_, ?_, ?_⟩
  · by_cases hp : payload.isEmpty
    · simp [updateQuestionTab, hp]
    · by_cases hl : (isLocked && (payload.filter (fun kv => kv.1 == "points")).isEmpty) = true
      · simp [updateQuestionTab, hp, hl]
      · rcases hmo with ⟨msg, rfl⟩ | ⟨data, rfl⟩ <;>
          simp [updateQuestionTab, hp, hl]
  · cases isLocked with
    | true => simp [updateQuestionPage]
    | false =>
      by_cases hp : payload.isEmpty
      · simp [updateQuestionPage, hp]
      · rcases hmo with ⟨msg, rfl⟩ | ⟨data, rfl⟩ <;> simp [updateQuestionPage, hp]
  · rcases hmo with ⟨msg, rfl⟩ | ⟨data, rfl⟩ <;> cases isLocked <;> simp [deleteQuestionOp]
  · rcases hmo with ⟨msg, rfl⟩ | ⟨data, rfl⟩ <;> cases isLocked <;> simp [addAnswerOp]
  · by_cases hp : payload.isEmpty
    · simp [updateAnswerTab, hp]
    · by_cases hl : (isLocked && !opts.allowWhileLocked) = true
      · simp [updateAnswerTab, hp, hl]
      · rcases hmo with ⟨msg, rfl⟩ | ⟨data, rfl⟩ <;> simp [updateAnswerTab, hp, hl]
  · cases isLocked with
    | true => simp [updateAnswerPage]
    | false => rcases hmo with ⟨msg, rfl⟩ | ⟨data, rfl⟩ <;> simp [updateAnswerPage]
  · rcases hmo with ⟨msg, rfl⟩ | ⟨data, rfl⟩ <;> cases isLocked <;> simp [deleteAnswerOp]
  · rcases hmo with ⟨msg, rfl⟩ | ⟨data, rfl⟩ <;> cases isLocked <;> simp [reorderAnswersOp]
  · cases isLocked with
    | true => simp [reorderSubjectsOp]
    | false =>
      rcases hfi : st.subjects.findIdx? (fun s2 => s2.subject_uuid == s) with _ | ci
      · simp [reorderSubjectsOp, hfi]
      · by_cases hb : ((ci : Int) + direction < 0 ∨
            (st.subjects.length : Int) ≤ (ci : Int) + direction)
        · simp [reorderSubjectsOp, hfi, hb]
        · rcases hel : st.subjects[ci]? with _ | moved
          · simp [reorderSubjectsOp, hfi, hb, hel]
          · rcases hpatch with ⟨msg, rfl⟩ | ⟨data, rfl⟩ <;>
              simp [reorderSubjectsOp, hfi, hb, hel]
  · cases isLocked with
    | true => simp [reorderQuestionsOp]
    | false =>
      rcases hcomp : reorderQuestionsCompute st.subjects s q direction with _ | L
      · simp [reorderQuestionsOp, hcomp]
      · rcases hpatch with ⟨msg, rfl⟩ | ⟨data, rfl⟩ <;> simp [reorderQuestionsOp, hcomp]

/-- C10 witness: a concrete non-2xx failure of a subject reorder leaves
the two-subject tree exactly as it was and returns `false`. -/
theorem mutation_failure_atomicity_witness :
    (reorderSubjectsOp false ⟨[⟨"A", "Alg", 0, []⟩, ⟨"B", "Bio", 1, []⟩], none, none⟩
        "A" 1 (.got false none)).result = false ∧
    (reorderSubjectsOp false ⟨[⟨"A", "Alg", 0, []⟩, ⟨"B", "Bio", 1, []⟩], none, none⟩
        "A" 1 (.got false none)).state.subjects
      = (⟨[⟨"A", "Alg", 0, []⟩, ⟨"B", "Bio", 1, []⟩], none, none⟩ : TabState).subjects :=
  (mutation_failure_atomicity false
    ⟨[⟨"A", "Alg", 0, []⟩, ⟨"B", "Bio", 1, []⟩], none, none⟩ "q" "a" "A" true [] none {}
    [] 1 (.got false none) (.got false none) (.got true none)
    (Or.inr ⟨none, rfl⟩) (Or.inr ⟨none, rfl⟩)).2.2.2.2.2.2.2.2.1

theorem perm_double_modify (Q : List (List String)) (si tsi qi pos : Nat) (q : String)
    (qs xtsi : List String)
    (hQsi : Q[si]? = some qs)
    (hq : qs[qi]? = some q)
    (hX : (modifyIdx Q si (fun l => l.eraseIdx qi))[tsi]? = some xtsi)
    (hpos : pos ≤ xtsi.length) :
    ((modifyIdx (modifyIdx Q si (fun l => l.eraseIdx qi)) tsi
        (fun l => l.insertIdx pos q)).flatten).Perm Q.flatten := by
  rw [List.perm_iff_count]
  intro a
  rw [List.count_flatten, List.count_flatten]
  have e2 := sum_map_modifyIdx (modifyIdx Q si (fun l => l.eraseIdx qi)) (List.count a)
    tsi (fun l => l.insertIdx pos q) xtsi hX
  have e1 := sum_map_modifyIdx Q (List.count a) si (fun l => l.eraseIdx qi) qs hQsi
  have r2 : (xtsi.insertIdx pos q).count a = (q :: xtsi).count a :=
    (List.perm_insertIdx q xtsi hpos).count_eq a
  have r1 : (q :: qs.eraseIdx qi).count a = qs.count a := (perm_cons_eraseIdx hq).count_eq a
  rw [List.count_cons] at r1 r2
  simp only at e1 e2
  omega

theorem reorderQuestionsCompute_inv (subjects : List Subject) (sU qU : String)
    (direction : Int) (L : List SubjectLayout)
    (hL : reorderQuestionsCompute subjects sU qU direction = some L) :
    ∃ si subject qi tsi pos,
      subjects.findIdx? (fun s => s.subject_uuid == sU) = some si ∧
      subjects[si]? = some subject ∧
      subject.questions.findIdx? (fun q2 => q2.question_uuid == qU) = some qi ∧
      L = modifyIdx (modifyIdx (baseLayout subjects) si
            (fun b => ⟨b.subject_uuid, b.question_uuids.eraseIdx qi⟩)) tsi
            (fun b => ⟨b.subject_uuid, b.question_uuids.insertIdx pos qU⟩) ∧
      ((((qi : Int) + direction < 0) ∧ si ≠ 0 ∧ tsi = si - 1 ∧
          pos = ((subjects[si - 1]?).map (fun s2 => s2.questions.length)).getD 0)
       ∨ (¬((qi : Int) + direction < 0) ∧
          ((subject.questions.length : Int) ≤ (qi : Int) + direction) ∧
          si ≠ subjects.length - 1 ∧ tsi = si + 1 ∧ pos = 0)
       ∨ (¬((qi : Int) + direction < 0) ∧
          ¬((subject.questions.length : Int) ≤ (qi : Int) + direction) ∧
          tsi = si ∧ pos = ((qi : Int) + direction).toNat)) := by
  unfold reorderQuestionsCompute at hL
  rcases hsi : subjects.findIdx? (fun s => s.subject_uuid == sU) with _ | si
  · rw [hsi] at hL
    simp at hL
  · rw [hsi] at hL
    dsimp only at hL
    rcases hsubj : subjects[si]? with _ | subject
    · rw [hsubj] at hL
      simp at hL
    · rw [hsubj] at hL
      dsimp only at hL
      rcases hqi : subject.questions.findIdx? (fun q2 => q2.question_uuid == qU) with _ | qi
      · rw [hqi] at hL
        simp at hL
      · rw [hqi] at hL
        dsimp only at hL
        by_cases hneg : ((qi : Int) + direction < 0)
        · rw [if_pos hneg] at hL
          by_cases h0 : si = 0
          · rw [if_pos (by simp [h0])] at hL
            simp at hL
          · rw [if_neg (by simp [h0])] at hL
            simp only [Option.map_some', Option.some.injEq] at hL
            refine ⟨si, subject, qi, si - 1,
              ((subjects[si - 1]?).map (fun s2 => s2.questions.length)).getD 0,
              hsi, hsubj, hqi, hL.symm, Or.inl ⟨hneg, h0, rfl, rfl⟩⟩
        · rw [if_neg hneg] at hL
          by_cases hge : ((subject.questions.length : Int) ≤ (qi : Int) + direction)
          · rw [if_pos hge] at hL
            by_cases hlast : si = subjects.length - 1
            · rw [if_pos (by simp [hlast])] at hL
              simp at hL
            · rw [if_neg (by simp [hlast])] at hL
              simp only [Option.map_some', Option.some.injEq] at hL
              exact ⟨si, subject, qi, si + 1, 0, hsi, hsubj, hqi, hL.symm,
                Or.inr (Or.inl ⟨hneg, hge, hlast, rfl, rfl⟩)⟩
          · rw [if_neg hge] at hL
            simp only [Option.map_some', Option.some.injEq] at hL
            exact ⟨si, subject, qi, si, ((qi : Int) + direction).toNat, hsi, hsubj, hqi,
              hL.symm, Or.inr (Or.inr ⟨hneg, hge, rfl, rfl⟩)⟩

/-- C9: whenever the reorder computation produces a layout (a valid,
non-no-op move), the cross-subject layout sent in the PATCH body is a
permutation of the question ids currently present in the tree, it lists
the same subjects in the same order, and every subject other than the
source and the target keeps exactly its current question-id list. -/
theorem reorder_layout_is_permutation
    (subjects : List Subject) (subjectUuid questionUuid : String) (direction : Int)
    (L : List SubjectLayout)
    (hL : reorderQuestionsCompute subjects subjectUuid questionUuid direction = some L) :
    ((L.map (fun b => b.question_uuids)).flatten).Perm
        ((subjects.map (fun s => s.questions.map (fun q2 => q2.question_uuid))).flatten) ∧
    L.map (fun b => b.subject_uuid) = subjects.map (fun s => s.subject_uuid) ∧
    (∀ si, subjects.findIdx? (fun s => s.subject_uuid == subjectUuid) = some si →
      ∃ tsi, tsi < subjects.length ∧
        ∀ j, j ≠ si → j ≠ tsi → L[j]? = (baseLayout subjects)[j]?) := by
  obtain ⟨si, subject, qi, tsi, pos, hsi, hsubj, hqi, hLdef, hcase⟩ :=
    reorderQuestionsCompute_inv subjects subjectUuid questionUuid direction L hL
  have hsilt : si < subjects.length := (List.getElem?_eq_some.mp hsubj).1
  set Qmat := subjects.map (fun s => s.questions.map (fun q2 => q2.question_uuid))
    with hQdef
  set qs := subject.questions.map (fun q2 => q2.question_uuid) with hqsdef
  have hQmat : (baseLayout subjects).map (fun b => b.question_uuids) = Qmat := by
    rw [hQdef]
    simp only [baseLayout, List.map_map]
    rfl
  have hQsi : Qmat[si]? = some qs := by
    rw [hQdef, List.getElem?_map, hsubj]
    rfl
  obtain ⟨hqlt, hpred, _⟩ := List.findIdx?_eq_some_iff_getElem.mp hqi
  have huuid : (subject.questions[qi]).question_uuid = questionUuid := by simpa using hpred
  have hq : qs[qi]? = some questionUuid := by
    rw [hqsdef, List.getElem?_map, List.getElem?_eq_getElem hqlt]
    simp [huuid]
  have hqslt : qi < qs.length := by
    rw [hqsdef, List.length_map]
    exact hqlt
  have hM : L.map (fun b => b.question_uuids)
      = modifyIdx (modifyIdx Qmat si (fun l => l.eraseIdx qi)) tsi
          (fun l => l.insertIdx pos questionUuid) := by
    have step1 := map_modifyIdx
      (modifyIdx (baseLayout subjects) si
        (fun b => ⟨b.subject_uuid, b.question_uuids.eraseIdx qi⟩)) tsi
      (fun b => ⟨b.subject_uuid, b.question_uuids.insertIdx pos questionUuid⟩)
      (fun b => b.question_uuids) (fun l => l.insertIdx pos questionUuid) (fun x => rfl)
    have step2 := map_modifyIdx (baseLayout subjects) si
      (fun b => ⟨b.subject_uuid, b.question_uuids.eraseIdx qi⟩)
      (fun b => b.question_uuids) (fun l => l.eraseIdx qi) (fun x => rfl)
    rw [hLdef, step1, step2, hQmat]
  have hU : L.map (fun b => b.subject_uuid) = subjects.map (fun s => s.subject_uuid) := by
    have step1 := map_modifyIdx
      (modifyIdx (baseLayout subjects) si
        (fun b => ⟨b.subject_uuid, b.question_uuids.eraseIdx qi⟩)) tsi
      (fun b => ⟨b.subject_uuid, b.question_uuids.insertIdx pos questionUuid⟩)
      (fun b => b.subject_uuid) id (fun x => rfl)
    have step2 := map_modifyIdx (baseLayout subjects) si
      (fun b => ⟨b.subject_uuid, b.question_uuids.eraseIdx qi⟩)
      (fun b => b.subject_uuid) id (fun x => rfl)
    rw [hLdef, step1, step2]
    rw [modifyIdx_of_id _ tsi id (fun x => rfl), modifyIdx_of_id _ si id (fun x => rfl)]
    simp only [baseLayout, List.map_map]
    rfl
  have hfacts : tsi < subjects.length ∧ ∃ xtsi,
      (modifyIdx Qmat si (fun l => l.eraseIdx qi))[tsi]? = some xtsi ∧
        pos ≤ xtsi.length := by
    rcases hcase with ⟨hneg, h0, htsi, hpos⟩ | ⟨hneg, hge, hlast, htsi, hpos⟩ |
        ⟨hneg, hge, htsi, hpos⟩
    · subst htsi
      subst hpos
      have hprevlt : si - 1 < subjects.length := by omega
      obtain ⟨prev, hprev⟩ : ∃ p, subjects[si - 1]? = some p :=
        ⟨_, List.getElem?_eq_getElem hprevlt⟩
      refine ⟨by omega, prev.questions.map (fun q2 => q2.question_uuid), ?_, ?_⟩
      · rw [getElem?_modifyIdx_ne _ _ _ _ (show si - 1 ≠ si by omega)]
        rw [hQdef, List.getElem?_map, hprev]
        rfl
      · rw [hprev]
        simp
    · subst htsi
      subst hpos
      have hnextlt : si + 1 < subjects.length := by omega
      obtain ⟨nxt, hnxt⟩ : ∃ p, subjects[si + 1]? = some p :=
        ⟨_, List.getElem?_eq_getElem hnextlt⟩
      refine ⟨hnextlt, nxt.questions.map (fun q2 => q2.question_uuid), ?_, Nat.zero_le _⟩
      rw [getElem?_modifyIdx_ne _ _ _ _ (show si + 1 ≠ si by omega)]
      rw [hQdef, List.getElem?_map, hnxt]
      rfl
    · subst htsi
      subst hpos
      refine ⟨hsilt, qs.eraseIdx qi, ?_, ?_⟩
      · rw [getElem?_modifyIdx_self, hQsi]
        rfl
      · have hlen : (qs.eraseIdx qi).length = qs.length - 1 :=
          List.length_eraseIdx_of_lt hqslt
        have hqslen : qs.length = subject.questions.length := by simp [hqsdef]
        omega
  obtain ⟨htsilt, xtsi, hX, hposle⟩ := hfacts
  refine ⟨?_, hU, ?_⟩
  · rw [hM]
    exact perm_double_modify Qmat si tsi qi pos questionUuid qs xtsi hQsi hq hX hposle
  · intro si' hsi'
    have hsieq : si = si' := by
      rw [hsi] at hsi'
      exact Option.some.inj hsi'
    subst hsieq
    refine ⟨tsi, htsilt, ?_⟩
    intro j hjsi hjtsi
    rw [hLdef, getElem?_modifyIdx_ne _ _ _ _ hjtsi, getElem?_modifyIdx_ne _ _ _ _ hjsi]

/-- C9 witness: a concrete migrating move — the last question of the
first subject moved down into the second subject — whose PATCH layout is
a permutation of the current ids. -/
theorem reorder_layout_is_permutation_witness :
    (([⟨"A", ["Q1"]⟩, ⟨"B", ["Q2"]⟩] : List SubjectLayout).map
        (fun b => b.question_uuids)).flatten.Perm
      (([⟨"A", "Alg", 0, [⟨"Q1", "simple", "A", []⟩, ⟨"Q2", "simple", "A", []⟩]⟩,
         ⟨"B", "Bio", 1, []⟩] : List Subject).map
        (fun s => s.questions.map (fun q2 => q2.question_uuid))).flatten :=
  (reorder_layout_is_permutation
    [⟨"A", "Alg", 0, [⟨"Q1", "simple", "A", []⟩, ⟨"Q2", "simple", "A", []⟩]⟩,
     ⟨"B", "Bio", 1, []⟩] "A" "Q2" 1 [⟨"A", ["Q1"]⟩, ⟨"B", ["Q2"]⟩] (by decide)).1

/-- C1: characterization of the reorder-question computation.  With the
subject found at index `si`, the question found at index `qi` inside it,
and a direction of ±1: (1) moving up from the first slot of the first
subject or down from the last slot of the last subject computes no
layout, and the operation returns `false`, sends nothing and leaves the
state unchanged; (2) moving up past the first slot appends the question
to the end of the previous subject's list; (3) moving down past the last
slot puts it at index 0 of the next subject's list; (4) otherwise the
question moves by one slot within its own subject; in every case all
other subjects keep their lists, and (5) the computed layout is exactly
what the PATCH request carries. -/
theorem reorder_question_characterization
    (subjects : List Subject) (subjectUuid questionUuid : String) (direction : Int)
    (si : Nat) (subject : Subject) (qi : Nat)
    (_hdir : direction = -1 ∨ direction = 1)
    (hsi : subjects.findIdx? (fun s => s.subject_uuid == subjectUuid) = some si)
    (hsubj : subjects[si]? = some subject)
    (hqi : subject.questions.findIdx? (fun q2 => q2.question_uuid == questionUuid)
      = some qi) :
    (((direction = -1 ∧ qi = 0 ∧ si = 0) ∨
        (direction = 1 ∧ qi + 1 = subject.questions.length ∧
          si + 1 = subjects.length)) →
      reorderQuestionsCompute subjects subjectUuid questionUuid direction = none ∧
      ∀ st patchResp, st.subjects = subjects →
        reorderQuestionsOp false st subjectUuid questionUuid direction patchResp
          = ⟨false, [], st⟩) ∧
    (direction = -1 → qi = 0 → si ≠ 0 →
      ∃ L, reorderQuestionsCompute subjects subjectUuid questionUuid direction = some L ∧
        L[si]? = ((baseLayout subjects)[si]?).map
          (fun b => ⟨b.subject_uuid, b.question_uuids.eraseIdx qi⟩) ∧
        (∀ prev, subjects[si - 1]? = some prev →
          L[si - 1]? = some ⟨prev.subject_uuid,
            prev.questions.map (fun q2 => q2.question_uuid) ++ [questionUuid]⟩) ∧
        ∀ j, j ≠ si → j ≠ si - 1 → L[j]? = (baseLayout subjects)[j]?) ∧
    (direction = 1 → qi + 1 = subject.questions.length → si + 1 < subjects.length →
      ∃ L, reorderQuestionsCompute subjects subjectUuid questionUuid direction = some L ∧
        L[si]? = ((baseLayout subjects)[si]?).map
          (fun b => ⟨b.subject_uuid, b.question_uuids.eraseIdx qi⟩) ∧
        (∀ nxt, subjects[si + 1]? = some nxt →
          L[si + 1]? = some ⟨nxt.subject_uuid,
            questionUuid :: nxt.questions.map (fun q2 => q2.question_uuid)⟩) ∧
        ∀ j, j ≠ si → j ≠ si + 1 → L[j]? = (baseLayout subjects)[j]?) ∧
    (∀ tp : Nat, (qi : Int) + direction = (tp : Int) → tp < subject.questions.length →
      ∃ L, reorderQuestionsCompute subjects subjectUuid questionUuid direction = some L ∧
        L[si]? = some ⟨subject.subject_uuid,
          ((subject.questions.map (fun q2 => q2.question_uuid)).eraseIdx qi).insertIdx
            tp questionUuid⟩ ∧
        ∀ j, j ≠ si → L[j]? = (baseLayout subjects)[j]?) ∧
    (∀ st patchResp L2, st.subjects = subjects →
      reorderQuestionsCompute subjects subjectUuid questionUuid direction = some L2 →
      (reorderQuestionsOp false st subjectUuid questionUuid direction patchResp).requests
        = [Request.patchQuestionsOrder L2]) := by
  have hsilt : si < subjects.length := (List.getElem?_eq_some.mp hsubj).1
  have hcompute : reorderQuestionsCompute subjects subjectUuid questionUuid direction
      = Option.map (fun tp : Nat × Nat =>
          modifyIdx (modifyIdx (baseLayout subjects) si
            (fun b => ⟨b.subject_uuid, b.question_uuids.eraseIdx qi⟩)) tp.1
            (fun b => ⟨b.subject_uuid, b.question_uuids.insertIdx tp.2 questionUuid⟩))
        (if (qi : Int) + direction < 0 then
          if si == 0 then none
          else some (si - 1,
            ((subjects[si - 1]?).map (fun s2 => s2.questions.length)).getD 0)
        else if (subject.questions.length : Int) ≤ (qi : Int) + direction then
          if si == subjects.length - 1 then none else some (si + 1, 0)
        else some (si, ((qi : Int) + direction).toNat)) := by
    unfold reorderQuestionsCompute
    rw [hsi]
    dsimp only
    rw [hsubj]
    dsimp only
    rw [hqi]
  have hbasesi : (baseLayout subjects)[si]?
      = some ⟨subject.subject_uuid,
          subject.questions.map (fun q2 => q2.question_uuid)⟩ := by
    rw [baseLayout, List.getElem?_map, hsubj]
    rfl
  refine ⟨?_, ?_, ?_, ?_, ?_⟩
  · intro hedge
    have hnone : reorderQuestionsCompute subjects subjectUuid questionUuid direction
        = none := by
      rcases hedge with ⟨hde, hq0, hs0⟩ | ⟨hde, hqlast, hslast⟩
      · rw [hcompute, if_pos (by rw [hde, hq0]; decide), if_pos (by simp [hs0])]
        rfl
      · have hnotneg : ¬((qi : Int) + direction < 0) := by omega
        have hge : ((subject.questions.length : Int) ≤ (qi : Int) + direction) := by omega
        rw [hcompute, if_neg hnotneg, if_pos hge, if_pos (by simp; omega)]
        rfl
    refine ⟨hnone, ?_⟩
    intro st patchResp hst
    unfold reorderQuestionsOp
    rw [if_neg (by simp), hst, hnone]
  · intro hde hq0 hs0
    have hneg : ((qi : Int) + direction < 0) := by rw [hde, hq0]; decide
    have hsome : reorderQuestionsCompute subjects subjectUuid questionUuid direction
        = some (modifyIdx (modifyIdx (baseLayout subjects) si
            (fun b => ⟨b.subject_uuid, b.question_uuids.eraseIdx qi⟩)) (si - 1)
            (fun b => ⟨b.subject_uuid, b.question_uuids.insertIdx
              (((subjects[si - 1]?).map (fun s2 => s2.questions.length)).getD 0)
              questionUuid⟩)) := by
      rw [hcompute, if_pos hneg, if_neg (by simp [hs0])]
      rfl
    refine ⟨_, hsome, ?_, ?_, ?_⟩
    · rw [getElem?_modifyIdx_ne _ _ _ _ (show si ≠ si - 1 by omega),
        getElem?_modifyIdx_self]
    · intro prev hprev
      rw [getElem?_modifyIdx_self,
        getElem?_modifyIdx_ne _ _ _ _ (show si - 1 ≠ si by omega)]
      have hbaseprev : (baseLayout subjects)[si - 1]?
          = some ⟨prev.subject_uuid,
              prev.questions.map (fun q2 => q2.question_uuid)⟩ := by
        rw [baseLayout, List.getElem?_map, hprev]
        rfl
      rw [hbaseprev, hprev]
      simp only [Option.map_some', Option.getD_some, Option.some.injEq]
      have hlen : prev.questions.length
          = (prev.questions.map (fun q2 => q2.question_uuid)).length := by
        rw [List.length_map]
      rw [hlen, List.insertIdx_length_self]
    · intro j hjsi hjprev
      rw [getElem?_modifyIdx_ne _ _ _ _ hjprev, getElem?_modifyIdx_ne _ _ _ _ hjsi]
  · intro hde hqlast hslt
    have hnotneg : ¬((qi : Int) + direction < 0) := by omega
    have hge : ((subject.questions.length : Int) ≤ (qi : Int) + direction) := by omega
    have hsome : reorderQuestionsCompute subjects subjectUuid questionUuid direction
        = some (modifyIdx (modifyIdx (baseLayout subjects) si
            (fun b => ⟨b.subject_uuid, b.question_uuids.eraseIdx qi⟩)) (si + 1)
            (fun b => ⟨b.subject_uuid, b.question_uuids.insertIdx 0 questionUuid⟩)) := by
      rw [hcompute, if_neg hnotneg, if_pos hge, if_neg (by simp; omega)]
      rfl
    refine ⟨_, hsome, ?_, ?_, ?_⟩
    · rw [getElem?_modifyIdx_ne _ _ _ _ (show si ≠ si + 1 by omega),
        getElem?_modifyIdx_self]
    · intro nxt hnxt
      rw [getElem?_modifyIdx_self,
        getElem?_modifyIdx_ne _ _ _ _ (show si + 1 ≠ si by omega)]
      have hbasenxt : (baseLayout subjects)[si + 1]?
          = some ⟨nxt.subject_uuid,
              nxt.questions.map (fun q2 => q2.question_uuid)⟩ := by
        rw [baseLayout, List.getElem?_map, hnxt]
        rfl
      rw [hbasenxt]
      simp only [Option.map_some', Option.some.injEq]
      rw [List.insertIdx_zero]
    · intro j hjsi hjnxt
      rw [getElem?_modifyIdx_ne _ _ _ _ hjnxt, getElem?_modifyIdx_ne _ _ _ _ hjsi]
  · intro tp htp htplt
    have hnotneg : ¬((qi : Int) + direction < 0) := by omega
    have hlt : ¬((subject.questions.length : Int) ≤ (qi : Int) + direction) := by omega
    have htoNat : ((qi : Int) + direction).toNat = tp := by omega
    have hsome : reorderQuestionsCompute subjects subjectUuid questionUuid direction
        = some (modifyIdx (modifyIdx (baseLayout subjects) si
            (fun b => ⟨b.subject_uuid, b.question_uuids.eraseIdx qi⟩)) si
            (fun b => ⟨b.subject_uuid, b.question_uuids.insertIdx tp questionUuid⟩)) := by
      rw [hcompute, if_neg hnotneg, if_neg hlt]
      simp only [Option.map_some', htoNat]
    refine ⟨_, hsome, ?_, ?_⟩
    · rw [getElem?_modifyIdx_self, getElem?_modifyIdx_self, hbasesi]
      rfl
    · intro j hjsi
      rw [getElem?_modifyIdx_ne _ _ _ _ hjsi, getElem?_modifyIdx_ne _ _ _ _ hjsi]
  · intro st patchResp L2 hst hL2
    unfold reorderQuestionsOp
    rw [if_neg (by simp), hst, hL2]
    cases patchResp with
    | thrown msg => rfl
    | got ok data => cases ok <;> rfl

/-- C1 witness: concretely, moving the only question of the first (and
only) subject up is a no-op computing no layout. -/
theorem reorder_question_characterization_witness :
    reorderQuestionsCompute [⟨"A", "Alg", 0, [⟨"Q1", "simple", "A", []⟩]⟩] "A" "Q1" (-1)
      = none :=
  ((reorder_question_characterization [⟨"A", "Alg", 0, [⟨"Q1", "simple", "A", []⟩]⟩]
      "A" "Q1" (-1) 0 ⟨"A", "Alg", 0, [⟨"Q1", "simple", "A", []⟩]⟩ 0
      (Or.inl rfl) (by decide) (by decide) (by decide)).1
    (Or.inl ⟨rfl, rfl, rfl⟩)).1

end RadiQuiz
